import Mathlib

/-!
Shallow embedding of `src/include/cupti_profiler.h` (namespace `cupti_profiler`):
the multi-pass CUPTI event/metric collection engine.  External CUPTI/CUDA calls
are modelled by a `CatalogueEnv` record of total functions describing what the
vendor API returned during one run; the engine's own control flow, arithmetic
and buffer manipulation are translated directly from the C++ source.
All 64-bit unsigned arithmetic is modelled on `Nat` with explicit `% 2 ^ 64`.
-/

set_option autoImplicit false

abbrev EventID := Nat
abbrev MetricID := Nat
abbrev DomainID := Nat
/-- An opaque `CUpti_EventGroup` handle. -/
abbrev EventGroup := Nat
/-- The opaque bits of a `CUpti_MetricValue` union. -/
abbrev MetricBits := Nat

/-- The six cases of `CUpti_MetricValueKind` handled by `detail::print_metric`. -/
inductive MetricValueKind where
  | double
  | uint64
  | int64
  | percent
  | throughput
  | utilizationLevel
  deriving DecidableEq, Repr

/--
One run's snapshot of the external CUPTI/CUDA surface consumed by the engine:
name resolution, the two group-set partitions, per-group and per-domain
attribute queries, raw counter readout, metric value-kind query and metric
value computation.  Each field records what the corresponding vendor call
returns (all such calls are assumed to succeed; a failure aborts the process
in the C++ source and is outside the embedded state space).
-/
structure CatalogueEnv where
  /-- `cuDeviceGetCount` result. -/
  deviceCount : Nat
  /-- The `CUdevice` handle obtained from `cuDeviceGet`. -/
  device : Nat
  /-- `cuptiEventGetIdFromName`. -/
  eventIdOf : String → EventID
  /-- `cuptiMetricGetIdFromName`. -/
  metricIdOf : String → MetricID
  /-- `cuptiMetricCreateEventGroupSets`: one entry per pass, each the pass's event groups. -/
  metricSets : List (List EventGroup)
  /-- `cuptiEventGroupSetsCreate`: one entry per pass, each the pass's event groups. -/
  eventSets : List (List EventGroup)
  /-- `CUPTI_EVENT_GROUP_ATTR_EVENT_DOMAIN_ID`. -/
  groupDomain : EventGroup → DomainID
  /-- `CUPTI_EVENT_DOMAIN_ATTR_TOTAL_INSTANCE_COUNT`. -/
  totalInstances : DomainID → Nat
  /-- `CUPTI_EVENT_GROUP_ATTR_INSTANCE_COUNT`. -/
  numInstances : EventGroup → Nat
  /-- `CUPTI_EVENT_GROUP_ATTR_EVENTS` (its length is `CUPTI_EVENT_GROUP_ATTR_NUM_EVENTS`). -/
  groupEvents : EventGroup → List EventID
  /-- `cuptiEventGroupReadEvent`: raw per-instance values of one event of one group. -/
  readValues : EventGroup → EventID → List Nat
  /-- `CUPTI_METRIC_ATTR_VALUE_KIND`. -/
  metricKind : MetricID → MetricValueKind
  /-- `cuptiMetricGetValue`, fed the flat id/value buffers built by `profiler::stop`.
  Cells never written by the copy loop stay `none` (uninitialized `new[]` memory). -/
  computeMetricValue : MetricID → List (Option EventID) → List (Option Nat) → MetricBits

/-- `2 ^ 64`, the modulus of the `uint64_t` arithmetic in the callback. -/
def U64 : Nat := 2 ^ 64

/-- The summation loop `for(k) sum += values[k]` over `uint64_t sum`. -/
def sum_instances (values : List Nat) : Nat :=
  values.foldl (fun a v => (a + v) % U64) 0

/-- `normalized = (sum * numTotalInstances) / numInstances` in `uint64_t`
arithmetic: the product wraps modulo `2 ^ 64`, the division truncates. -/
def normalize_instances (values : List Nat) (T n : Nat) : Nat :=
  (sum_instances values * T % U64) / n

/-- The per-event body of the exit-boundary capture loop: read one event's raw
per-instance values (the loop reads exactly `numInstances` cells of the
`values` buffer), sum them and normalize to the domain's total instance
count. -/
def readEventValue (env : CatalogueEnv) (g : EventGroup) (e : EventID) : Nat :=
  normalize_instances ((env.readValues g e).take (env.numInstances g))
    (env.totalInstances (env.groupDomain g)) (env.numInstances g)

/-- `detail::pass_data_t`: the per-pass record filled in by the constructor
(planned fields) and by the exit-boundary capture (`event_ids`,
`event_values`). -/
structure pass_data_t where
  total_passes : Nat
  device : Nat
  event_groups : List EventGroup
  current_event_idx : Nat
  num_events : Nat
  event_ids : List EventID
  event_values : List Nat
  deriving DecidableEq, Repr, Inhabited

/-- The inner loop of the exit-boundary capture for one event group: for each
event id of the group, append `(eventId, normalized)` to the owning pass's
result buffers. -/
def captureGroup (env : CatalogueEnv) (pd : pass_data_t) (g : EventGroup) : pass_data_t :=
  { pd with
    event_ids := pd.event_ids ++ env.groupEvents g
    event_values := pd.event_values ++ (env.groupEvents g).map (readEventValue env g) }

/-- The outer loop of the exit-boundary capture: process every event group of
the pass, in order. -/
def capturePass (env : CatalogueEnv) (pd : pass_data_t) : pass_data_t :=
  pd.event_groups.foldl (captureGroup env) pd

/-- The state touched by `detail::get_value_callback`: the static
`current_pass` cursor, the `pass_data_t` vector behind the `userdata` pointer,
and the set of device event groups currently enabled. -/
structure callback_state where
  current_pass : Nat
  pass_vector : List pass_data_t
  enabled : List EventGroup
  deriving DecidableEq, Repr

/-- `(*pass_vector)[0].total_passes`, the bound used by the callback's cursor
guard (`0` for an empty vector, which the constructor rules out). -/
def total_passes_of (s : callback_state) : Nat :=
  match s.pass_vector with
  | [] => 0
  | pd :: _ => pd.total_passes

/-- The `CUPTI_API_ENTER` branch of `get_value_callback`: when the cursor is
still below the planned pass count, enable every event group of the pass at
the cursor (device synchronization and collection-mode setting have no
modelled state).  The cursor is not touched. -/
def get_value_callback_enter (_env : CatalogueEnv) (s : callback_state) : callback_state :=
  if total_passes_of s ≤ s.current_pass then s
  else
    match s.pass_vector[s.current_pass]? with
    | none => s
    | some pd => { s with enabled := s.enabled ++ pd.event_groups }

/-- The `CUPTI_API_EXIT` branch of `get_value_callback`: when the cursor is
still below the planned pass count, capture every event group of the pass at
the cursor into that pass's result buffers, disable the pass's groups and
advance the cursor by one; otherwise return immediately. -/
def get_value_callback_exit (env : CatalogueEnv) (s : callback_state) : callback_state :=
  if total_passes_of s ≤ s.current_pass then s
  else
    match s.pass_vector[s.current_pass]? with
    | none => s
    | some pd =>
      { current_pass := s.current_pass + 1
        pass_vector := s.pass_vector.set s.current_pass (capturePass env pd)
        enabled := s.enabled.filter (fun g => !(pd.event_groups.contains g)) }

/-- `n` consecutive exit-boundary invocations of the callback. -/
def run_exits (env : CatalogueEnv) : Nat → callback_state → callback_state
  | 0, s => s
  | n + 1, s => run_exits env n (get_value_callback_exit env s)

/-- The outcome of a failed construction: `NoDevice` models the
`device_count == 0` abort, `EmptyRequest` models the
`assert((m_metric_passes + m_event_passes) > 0)` abort that fires when the
collection request produced no passes at all. -/
inductive SetupError where
  | NoDevice
  | EmptyRequest
  deriving DecidableEq, Repr

/-- The planning-time counter total of one pass: the sum over its event groups
of `CUPTI_EVENT_GROUP_ATTR_NUM_EVENTS` (the `total_events` accumulation in
the constructor). -/
def plannedEvents (env : CatalogueEnv) (groups : List EventGroup) : Nat :=
  (groups.map (fun g => (env.groupEvents g).length)).sum

/-- The constructor's per-pass initialization of `m_data[i]`: group
assignment, device handle, planned counter total and total pass count; the
result buffers start empty (default-constructed vectors). -/
def mkPassData (env : CatalogueEnv) (device total : Nat) (groups : List EventGroup) :
    pass_data_t :=
  { total_passes := total
    device := device
    event_groups := groups
    current_event_idx := 0
    num_events := plannedEvents env groups
    event_ids := []
    event_values := [] }

/-- The `cupti_profiler::profiler` object state. -/
structure profiler where
  m_event_names : List String
  m_metric_names : List String
  m_num_metrics : Nat
  m_num_events : Nat
  m_events : List Nat
  m_metrics : List MetricBits
  m_metric_passes : Nat
  m_event_passes : Nat
  m_device : Nat
  m_data : List pass_data_t
  m_metric_id : List MetricID
  m_event_id : List EventID
  deriving DecidableEq, Repr

/-- The `profiler` constructor: resolve names, partition metrics and events
into passes (metrics first), abort when no device exists or when the request
yields zero passes, and build `m_data` with the metric-derived passes ahead of
the event-derived passes. -/
def profiler.mk? (env : CatalogueEnv) (events metrics : List String) :
    Except SetupError profiler :=
  if env.deviceCount = 0 then .error .NoDevice else
  let metric_ids := metrics.map env.metricIdOf
  let event_ids := events.map env.eventIdOf
  let metric_passes := if 0 < metrics.length then env.metricSets.length else 0
  let event_passes := if 0 < events.length then env.eventSets.length else 0
  if metric_passes + event_passes = 0 then .error .EmptyRequest else
  let total := metric_passes + event_passes
  let msets := if 0 < metrics.length then env.metricSets else []
  let esets := if 0 < events.length then env.eventSets else []
  .ok
    { m_event_names := events
      m_metric_names := metrics
      m_num_metrics := metrics.length
      m_num_events := events.length
      m_events := []
      m_metrics := []
      m_metric_passes := metric_passes
      m_event_passes := event_passes
      m_device := env.device
      m_data := msets.map (mkPassData env env.device total)
                  ++ esets.map (mkPassData env env.device total)
      m_metric_id := metric_ids
      m_event_id := event_ids }

/-- `profiler::get_passes`. -/
def profiler.get_passes (p : profiler) : Nat :=
  p.m_metric_passes + p.m_event_passes

/-- The flat aggregation buffers of `profiler::stop`: the `event_ids` /
`event_values` arrays allocated with `new[]` (cells `none` until written) and
the `running_sum` offset. -/
structure flat_buffers where
  ids : List (Option EventID)
  vals : List (Option Nat)
  running_sum : Nat
  deriving DecidableEq, Repr

/-- Overwrite `buf[off .. off + xs.length)` with `xs` (the semantics of
`std::copy` into a raw array at offset `off`); writes past the end of the
buffer are dropped. -/
def writeAt {α : Type} : List (Option α) → Nat → List α → List (Option α)
  | [], _, _ => []
  | buf, _, [] => buf
  | _ :: bs, 0, x :: xs => some x :: writeAt bs 0 xs
  | b :: bs, o + 1, xs => b :: writeAt bs o xs

/-- One iteration of the copy loop in `profiler::stop`: copy the pass's
result buffers at the current `running_sum` offset, then advance the offset
by the pass's planned `num_events`. -/
def copy_pass (bufs : flat_buffers) (pd : pass_data_t) : flat_buffers :=
  { ids := writeAt bufs.ids bufs.running_sum pd.event_ids
    vals := writeAt bufs.vals bufs.running_sum pd.event_values
    running_sum := bufs.running_sum + pd.num_events }

/-- `total_events` in `profiler::stop`: the sum of the planned counter totals
of the metric-derived passes. -/
def total_metric_events (p : profiler) : Nat :=
  ((p.m_data.take p.m_metric_passes).map (fun pd => pd.num_events)).sum

/-- The flat id/value buffers built by the copy loop of `profiler::stop` over
the metric-derived passes only. -/
def flat_of (p : profiler) : flat_buffers :=
  (p.m_data.take p.m_metric_passes).foldl copy_pass
    { ids := List.replicate (total_metric_events p) none
      vals := List.replicate (total_metric_events p) none
      running_sum := 0 }

/-- The `std::map<CUpti_EventID, uint64_t>` insertions performed by
`profiler::stop` over the event-derived passes, in insertion order (the loop
indexes `event_ids[j]` for `j < num_events`; out-of-range reads are modelled
by the default `0`, and never occur for passes whose capture completed). -/
def event_map_of (p : profiler) : List (EventID × Nat) :=
  ((p.m_data.drop p.m_metric_passes).take p.m_event_passes).flatMap
    (fun pd => (List.range pd.num_events).map
      (fun j => (pd.event_ids.getD j 0, pd.event_values.getD j 0)))

/-- `std::map::operator[]` over the insertion list: the most recent insertion
for the key wins, and a missing key value-initializes to `0`. -/
def map_lookup (m : List (EventID × Nat)) (k : EventID) : Nat :=
  match (m.filter (fun kv => kv.1 == k)).getLast? with
  | some kv => kv.2
  | none => 0

/-- `profiler::stop`: build the flat buffers from the metric-derived passes,
invoke the metric-value computation once per requested metric (in request
order), then build the event map from the event-derived passes and look up
each requested event (in request order). -/
def profiler.stop (env : CatalogueEnv) (p : profiler) : profiler :=
  let bufs := flat_of p
  let new_metrics := (List.range p.m_num_metrics).map
    (fun i => env.computeMetricValue (p.m_metric_id.getD i 0) bufs.ids bufs.vals)
  let emap := event_map_of p
  let new_events := (List.range p.m_num_events).map
    (fun i => map_lookup emap (p.m_event_id.getD i 0))
  { p with
    m_metrics := p.m_metrics ++ new_metrics
    m_events := p.m_events ++ new_events }

/-- `profiler::get_event_values`. -/
def profiler.get_event_values (p : profiler) : List Nat :=
  if 0 < p.m_num_events then p.m_events else []

/-- `profiler::get_metric_values`. -/
def profiler.get_metric_values (p : profiler) : List MetricBits :=
  if 0 < p.m_num_metrics then p.m_metrics else []

/-- The observable of `profiler::print_metric_values`: for each requested
metric index, the pair of the metric's native value kind (queried by
`detail::print_metric` via `CUPTI_METRIC_ATTR_VALUE_KIND`) and the stored
value bits. -/
def metric_outputs (env : CatalogueEnv) (p : profiler) :
    List (MetricValueKind × MetricBits) :=
  if p.m_num_metrics ≤ 0 then []
  else (List.range p.m_num_metrics).map
    (fun i => (env.metricKind (p.m_metric_id.getD i 0), p.m_metrics.getD i 0))

/-- The two projections of the collection outcome: event values and tagged
metric values, as observed after `profiler::stop`. -/
structure AggregateResult where
  events : List Nat
  metrics : List (MetricValueKind × MetricBits)
  deriving DecidableEq, Repr

/-- Finalize a profiler and read out both projections. -/
def aggregate (env : CatalogueEnv) (p : profiler) : AggregateResult :=
  let q := profiler.stop env p
  { events := profiler.get_event_values q
    metrics := metric_outputs env q }

/-! ### Concrete fixtures, used to instantiate the theorems below -/

/-- A small concrete catalogue: one metric pass (group `1`, event `99`) ahead
of one event pass (group `0`, event `42`); every group samples 2 of 4 domain
instances with raw values `[10, 20]`. -/
def envW : CatalogueEnv :=
  { deviceCount := 1
    device := 0
    eventIdOf := fun _ => 42
    metricIdOf := fun _ => 9
    metricSets := [[1]]
    eventSets := [[0]]
    groupDomain := fun _ => 0
    totalInstances := fun _ => 4
    numInstances := fun _ => 2
    groupEvents := fun g => if g = 0 then [42] else [99]
    readValues := fun _ _ => [10, 20]
    metricKind := fun _ => MetricValueKind.throughput
    computeMetricValue := fun _ _ _ => 7 }

/-- The metric-derived pass planned by `envW`. -/
def pdMW : pass_data_t :=
  { total_passes := 2
    device := 0
    event_groups := [1]
    current_event_idx := 0
    num_events := 1
    event_ids := []
    event_values := [] }

/-- The event-derived pass planned by `envW`. -/
def pdEW : pass_data_t :=
  { total_passes := 2
    device := 0
    event_groups := [0]
    current_event_idx := 0
    num_events := 1
    event_ids := []
    event_values := [] }

/-- The profiler constructed by `profiler.mk? envW ["A"] ["m"]`. -/
def pW : profiler :=
  { m_event_names := ["A"]
    m_metric_names := ["m"]
    m_num_metrics := 1
    m_num_events := 1
    m_events := []
    m_metrics := []
    m_metric_passes := 1
    m_event_passes := 1
    m_device := 0
    m_data := [pdMW, pdEW]
    m_metric_id := [9]
    m_event_id := [42] }

/-- The callback state at the start of collection for `pW`. -/
def sW : callback_state :=
  { current_pass := 0
    pass_vector := [pdMW, pdEW]
    enabled := [] }

/-- `pW` after both passes' exit boundaries completed. -/
def pDoneW : profiler :=
  { pW with m_data :=
      [{ pdMW with event_ids := [99], event_values := [60] },
       { pdEW with event_ids := [42], event_values := [60] }] }

/-- A catalogue whose single event pass collects event id `7` while the
requested event resolves to id `42`: a planner/request mismatch. -/
def envC3 : CatalogueEnv :=
  { deviceCount := 1
    device := 0
    eventIdOf := fun _ => 42
    metricIdOf := fun _ => 0
    metricSets := []
    eventSets := [[0]]
    groupDomain := fun _ => 0
    totalInstances := fun _ => 1
    numInstances := fun _ => 1
    groupEvents := fun _ => [7]
    readValues := fun _ _ => [5]
    metricKind := fun _ => MetricValueKind.double
    computeMetricValue := fun _ _ _ => 0 }

/-- A finished collection under `envC3`: the single event pass captured
`(7, 5)`, but the request asked for event id `42`. -/
def pC3 : profiler :=
  { m_event_names := ["A"]
    m_metric_names := []
    m_num_metrics := 0
    m_num_events := 1
    m_events := []
    m_metrics := []
    m_metric_passes := 0
    m_event_passes := 1
    m_device := 0
    m_data := [{ total_passes := 1
                 device := 0
                 event_groups := [0]
                 current_event_idx := 0
                 num_events := 1
                 event_ids := [7]
                 event_values := [5] }]
    m_metric_id := []
    m_event_id := [42] }

/-! ### Helper lemmas -/

theorem foldl_add_mod (vs : List Nat) (a : Nat) :
    vs.foldl (fun x v => (x + v) % U64) (a % U64) = (a + vs.sum) % U64 := by
  induction vs generalizing a with
  | nil => simp
  | cons v vs ih =>
    simp only [List.foldl_cons, List.sum_cons]
    rw [Nat.mod_add_mod] at *
    rw [ih (a + v)]
    ring_nf

theorem sum_instances_eq (vs : List Nat) : sum_instances vs = vs.sum % U64 := by
  have h := foldl_add_mod vs 0
  simpa [sum_instances] using h

theorem normalize_instances_eq (vs : List Nat) (T : Nat) (h : vs.sum * T < U64) :
    normalize_instances vs T vs.length = vs.sum * T / vs.length := by
  unfold normalize_instances
  rw [sum_instances_eq]
  rw [Nat.mod_mul_mod, Nat.mod_eq_of_lt h]

theorem captureGroup_planned (env : CatalogueEnv) (pd : pass_data_t) (g : EventGroup) :
    (captureGroup env pd g).total_passes = pd.total_passes ∧
    (captureGroup env pd g).device = pd.device ∧
    (captureGroup env pd g).event_groups = pd.event_groups ∧
    (captureGroup env pd g).current_event_idx = pd.current_event_idx ∧
    (captureGroup env pd g).num_events = pd.num_events := by
  simp [captureGroup]

theorem foldl_captureGroup_planned (env : CatalogueEnv) (gs : List EventGroup)
    (pd : pass_data_t) :
    (gs.foldl (captureGroup env) pd).total_passes = pd.total_passes ∧
    (gs.foldl (captureGroup env) pd).device = pd.device ∧
    (gs.foldl (captureGroup env) pd).event_groups = pd.event_groups ∧
    (gs.foldl (captureGroup env) pd).current_event_idx = pd.current_event_idx ∧
    (gs.foldl (captureGroup env) pd).num_events = pd.num_events := by
  induction gs generalizing pd with
  | nil => simp
  | cons g gs ih =>
    simp only [List.foldl_cons]
    have h := ih (captureGroup env pd g)
    simp [captureGroup] at h ⊢
    exact h

theorem capturePass_planned (env : CatalogueEnv) (pd : pass_data_t) :
    (capturePass env pd).total_passes = pd.total_passes ∧
    (capturePass env pd).device = pd.device ∧
    (capturePass env pd).event_groups = pd.event_groups ∧
    (capturePass env pd).current_event_idx = pd.current_event_idx ∧
    (capturePass env pd).num_events = pd.num_events :=
  foldl_captureGroup_planned env pd.event_groups pd

theorem foldl_captureGroup_lengths (env : CatalogueEnv) (gs : List EventGroup)
    (pd : pass_data_t) :
    (gs.foldl (captureGroup env) pd).event_ids.length
        = pd.event_ids.length + plannedEvents env gs ∧
    (gs.foldl (captureGroup env) pd).event_values.length
        = pd.event_values.length + plannedEvents env gs := by
  induction gs generalizing pd with
  | nil => simp [plannedEvents]
  | cons g gs ih =>
    simp only [List.foldl_cons]
    have h := ih (captureGroup env pd g)
    simp [captureGroup, plannedEvents] at h ⊢
    omega

theorem capturePass_lengths (env : CatalogueEnv) (pd : pass_data_t) :
    (capturePass env pd).event_ids.length
        = pd.event_ids.length + plannedEvents env pd.event_groups ∧
    (capturePass env pd).event_values.length
        = pd.event_values.length + plannedEvents env pd.event_groups :=
  foldl_captureGroup_lengths env pd.event_groups pd

theorem total_passes_of_wf (s : callback_state) (N : Nat)
    (hlen : s.pass_vector.length = N)
    (htp : ∀ pd ∈ s.pass_vector, pd.total_passes = N) :
    total_passes_of s = N := by
  cases hv : s.pass_vector with
  | nil => rw [hv] at hlen; simpa [total_passes_of, hv] using hlen
  | cons pd rest =>
    have : pd ∈ s.pass_vector := by rw [hv]; exact List.mem_cons_self pd rest
    simpa [total_passes_of, hv] using htp pd this

theorem exit_noop (env : CatalogueEnv) (s : callback_state) (N : Nat)
    (hlen : s.pass_vector.length = N)
    (htp : ∀ pd ∈ s.pass_vector, pd.total_passes = N)
    (hge : N ≤ s.current_pass) :
    get_value_callback_exit env s = s := by
  unfold get_value_callback_exit
  rw [total_passes_of_wf s N hlen htp]
  simp [hge]

theorem enter_current_pass (env : CatalogueEnv) (s : callback_state) :
    (get_value_callback_enter env s).current_pass = s.current_pass := by
  unfold get_value_callback_enter
  split
  · rfl
  · split <;> rfl

theorem exit_eq_of_lt (env : CatalogueEnv) (s : callback_state) (N : Nat)
    (hlen : s.pass_vector.length = N)
    (htp : ∀ pd ∈ s.pass_vector, pd.total_passes = N)
    (hlt : s.current_pass < N)
    (pd : pass_data_t) (hpd : s.pass_vector[s.current_pass]? = some pd) :
    get_value_callback_exit env s =
      { current_pass := s.current_pass + 1
        pass_vector := s.pass_vector.set s.current_pass (capturePass env pd)
        enabled := s.enabled.filter (fun g => !(pd.event_groups.contains g)) } := by
  unfold get_value_callback_exit
  rw [total_passes_of_wf s N hlen htp]
  rw [if_neg (by omega)]
  rw [hpd]

theorem exit_get_some (s : callback_state) (N : Nat)
    (hlen : s.pass_vector.length = N) (hlt : s.current_pass < N) :
    ∃ pd, s.pass_vector[s.current_pass]? = some pd := by
  have h : s.current_pass < s.pass_vector.length := by omega
  exact ⟨s.pass_vector[s.current_pass], List.getElem?_eq_getElem h⟩

theorem exit_wf (env : CatalogueEnv) (s : callback_state) (N : Nat)
    (hlen : s.pass_vector.length = N)
    (htp : ∀ pd ∈ s.pass_vector, pd.total_passes = N) :
    (get_value_callback_exit env s).pass_vector.length = N ∧
    ∀ pd ∈ (get_value_callback_exit env s).pass_vector, pd.total_passes = N := by
  by_cases hge : N ≤ s.current_pass
  · rw [exit_noop env s N hlen htp hge]; exact ⟨hlen, htp⟩
  · have hlt : s.current_pass < N := by omega
    obtain ⟨pd, hpd⟩ := exit_get_some s N hlen hlt
    rw [exit_eq_of_lt env s N hlen htp hlt pd hpd]
    constructor
    · simpa using hlen
    · intro pd' hpd'
      rcases List.mem_or_eq_of_mem_set hpd' with h | h
      · exact htp pd' h
      · rw [h, (capturePass_planned env pd).1]
        exact htp pd (List.getElem?_mem hpd)

theorem exit_cursor_of_lt (env : CatalogueEnv) (s : callback_state) (N : Nat)
    (hlen : s.pass_vector.length = N)
    (htp : ∀ pd ∈ s.pass_vector, pd.total_passes = N)
    (hlt : s.current_pass < N) :
    (get_value_callback_exit env s).current_pass = s.current_pass + 1 := by
  obtain ⟨pd, hpd⟩ := exit_get_some s N hlen hlt
  rw [exit_eq_of_lt env s N hlen htp hlt pd hpd]

theorem run_exits_noop (env : CatalogueEnv) (s : callback_state) (N : Nat) (k : Nat)
    (hlen : s.pass_vector.length = N)
    (htp : ∀ pd ∈ s.pass_vector, pd.total_passes = N)
    (hge : N ≤ s.current_pass) :
    run_exits env k s = s := by
  induction k with
  | zero => rfl
  | succ k ih =>
    show run_exits env k (get_value_callback_exit env s) = s
    rw [exit_noop env s N hlen htp hge]
    exact ih

theorem run_exits_wf_cursor (env : CatalogueEnv) (N : Nat) (k : Nat) :
    ∀ s : callback_state, s.pass_vector.length = N →
      (∀ pd ∈ s.pass_vector, pd.total_passes = N) →
      s.current_pass + k ≤ N →
      (run_exits env k s).current_pass = s.current_pass + k ∧
      (run_exits env k s).pass_vector.length = N ∧
      ∀ pd ∈ (run_exits env k s).pass_vector, pd.total_passes = N := by
  induction k with
  | zero => intro s hlen htp _; exact ⟨rfl, hlen, htp⟩
  | succ k ih =>
    intro s hlen htp hle
    have hlt : s.current_pass < N := by omega
    have hwf' := exit_wf env s N hlen htp
    have hcur := exit_cursor_of_lt env s N hlen htp hlt
    have := ih (get_value_callback_exit env s) hwf'.1 hwf'.2 (by omega)
    refine ⟨?_, this.2.1, this.2.2⟩
    show (run_exits env k (get_value_callback_exit env s)).current_pass = _
    rw [this.1, hcur]
    omega

theorem run_exits_add (env : CatalogueEnv) (a b : Nat) :
    ∀ s : callback_state, run_exits env (a + b) s = run_exits env b (run_exits env a s) := by
  induction a with
  | zero => intro s; rw [Nat.zero_add]; rfl
  | succ a ih =>
    intro s
    rw [Nat.succ_add]
    show run_exits env (a + b) (get_value_callback_exit env s)
        = run_exits env b (run_exits env a (get_value_callback_exit env s))
    exact ih (get_value_callback_exit env s)

theorem writeAt_nil {α : Type} (buf : List (Option α)) (o : Nat) :
    writeAt buf o [] = buf := by
  induction buf generalizing o with
  | nil => rfl
  | cons b bs ih => cases o <;> simp [writeAt, ih]

theorem writeAt_cons_succ {α : Type} (b : Option α) (bs : List (Option α))
    (o : Nat) (xs : List α) :
    writeAt (b :: bs) (o + 1) xs = b :: writeAt bs o xs := by
  cases xs with
  | nil => rw [writeAt_nil, writeAt_nil]
  | cons x xs => rfl

theorem writeAt_append {α : Type} (b rest : List (Option α)) (xs : List α) :
    writeAt (b ++ rest) b.length xs = b ++ writeAt rest 0 xs := by
  induction b with
  | nil => simp
  | cons c b ih =>
    show writeAt (c :: (b ++ rest)) (b.length + 1) xs = _
    rw [writeAt_cons_succ, ih]
    rfl

theorem writeAt_replicate {α : Type} (xs : List α) :
    ∀ R : Nat, xs.length ≤ R →
      writeAt (List.replicate R (none : Option α)) 0 xs
        = xs.map some ++ List.replicate (R - xs.length) none := by
  induction xs with
  | nil => intro R _; rw [writeAt_nil]; simp
  | cons x xs ih =>
    intro R hle
    cases R with
    | zero => simp at hle
    | succ r =>
      rw [List.replicate_succ]
      show some x :: writeAt (List.replicate r none) 0 xs = _
      simp only [List.length_cons, Nat.succ_sub_succ]
      rw [ih r (by simpa using hle)]
      simp

theorem foldl_copy_pass (l : List pass_data_t)
    (h : ∀ pd ∈ l, pd.event_ids.length = pd.num_events ∧
          pd.event_values.length = pd.num_events) :
    ∀ (di : List (Option EventID)) (dv : List (Option Nat)), dv.length = di.length →
      l.foldl copy_pass
        { ids := di ++ List.replicate ((l.map (fun pd => pd.num_events)).sum) none
          vals := dv ++ List.replicate ((l.map (fun pd => pd.num_events)).sum) none
          running_sum := di.length }
      = { ids := di ++ (l.flatMap (fun pd => pd.event_ids)).map some
          vals := dv ++ (l.flatMap (fun pd => pd.event_values)).map some
          running_sum := di.length + (l.map (fun pd => pd.num_events)).sum } := by
  induction l with
  | nil => intro di dv _; simp
  | cons pd l ih =>
    intro di dv hdv
    have hpd := h pd (List.mem_cons_self pd l)
    have hrest : ∀ q ∈ l, q.event_ids.length = q.num_events ∧
        q.event_values.length = q.num_events :=
      fun q hq => h q (List.mem_cons_of_mem pd hq)
    simp only [List.map_cons, List.sum_cons, List.foldl_cons, List.flatMap_cons]
    have hids : writeAt (di ++ List.replicate (pd.num_events +
          (l.map (fun q => q.num_events)).sum) none) di.length pd.event_ids
        = (di ++ pd.event_ids.map some)
            ++ List.replicate ((l.map (fun q => q.num_events)).sum) none := by
      rw [writeAt_append, writeAt_replicate pd.event_ids _ (by omega)]
      rw [hpd.1]
      simp [Nat.add_sub_cancel_left, List.append_assoc]
    have hvals : writeAt (dv ++ List.replicate (pd.num_events +
          (l.map (fun q => q.num_events)).sum) none) di.length pd.event_values
        = (dv ++ pd.event_values.map some)
            ++ List.replicate ((l.map (fun q => q.num_events)).sum) none := by
      rw [← hdv, writeAt_append, writeAt_replicate pd.event_values _ (by omega)]
      rw [hpd.2]
      simp [Nat.add_sub_cancel_left, List.append_assoc]
    have hstep : copy_pass
        { ids := di ++ List.replicate (pd.num_events +
            (l.map (fun q => q.num_events)).sum) none
          vals := dv ++ List.replicate (pd.num_events +
            (l.map (fun q => q.num_events)).sum) none
          running_sum := di.length } pd
      = { ids := (di ++ pd.event_ids.map some)
            ++ List.replicate ((l.map (fun q => q.num_events)).sum) none
          vals := (dv ++ pd.event_values.map some)
            ++ List.replicate ((l.map (fun q => q.num_events)).sum) none
          running_sum := (di ++ pd.event_ids.map some).length } := by
      simp only [copy_pass, hids, hvals]
      simp [hpd.1]
    rw [hstep]
    have hdv' : (dv ++ pd.event_values.map some).length
        = (di ++ pd.event_ids.map some).length := by
      simp [hdv, hpd.1, hpd.2]
    have := ih hrest (di ++ pd.event_ids.map some) (dv ++ pd.event_values.map some) hdv'
    rw [this]
    simp [hpd.1, List.append_assoc]
    omega

theorem flat_of_eq (p : profiler)
    (h : ∀ pd ∈ p.m_data.take p.m_metric_passes,
        pd.event_ids.length = pd.num_events ∧
        pd.event_values.length = pd.num_events) :
    flat_of p =
      { ids := ((p.m_data.take p.m_metric_passes).flatMap
            (fun pd => pd.event_ids)).map some
        vals := ((p.m_data.take p.m_metric_passes).flatMap
            (fun pd => pd.event_values)).map some
        running_sum := total_metric_events p } := by
  have := foldl_copy_pass (p.m_data.take p.m_metric_passes) h [] [] rfl
  simpa [flat_of, total_metric_events] using this

theorem range_map_getD {α β : Type} (l : List α) (f : α → β) (d : α) :
    (List.range l.length).map (fun i => f (l.getD i d)) = l.map f := by
  induction l with
  | nil => simp
  | cons x xs ih =>
    rw [List.length_cons, List.range_succ_eq_map]
    simp only [List.map_cons, List.map_map]
    rw [List.getD_cons_zero]
    have : ((fun i => f ((x :: xs).getD i d)) ∘ Nat.succ)
        = fun i => f (xs.getD i d) := by
      funext i
      simp [List.getD_cons_succ]
    rw [this, ih]

theorem mk?_ok (env : CatalogueEnv) (events metrics : List String) (p : profiler)
    (h : profiler.mk? env events metrics = .ok p) :
    env.deviceCount ≠ 0 ∧
    p.m_metric_passes = (if 0 < metrics.length then env.metricSets.length else 0) ∧
    p.m_event_passes = (if 0 < events.length then env.eventSets.length else 0) ∧
    0 < p.m_metric_passes + p.m_event_passes ∧
    p.m_num_metrics = metrics.length ∧
    p.m_num_events = events.length ∧
    p.m_events = [] ∧
    p.m_metrics = [] ∧
    p.m_metric_id = metrics.map env.metricIdOf ∧
    p.m_event_id = events.map env.eventIdOf ∧
    p.m_data = (if 0 < metrics.length then env.metricSets else []).map
          (mkPassData env env.device (p.m_metric_passes + p.m_event_passes))
        ++ (if 0 < events.length then env.eventSets else []).map
          (mkPassData env env.device (p.m_metric_passes + p.m_event_passes)) := by
  have hdev : env.deviceCount ≠ 0 := by
    intro hd
    simp [profiler.mk?, hd] at h
  simp only [profiler.mk?] at h
  rw [if_neg hdev] at h
  by_cases hz : (if 0 < metrics.length then env.metricSets.length else 0)
      + (if 0 < events.length then env.eventSets.length else 0) = 0
  · rw [if_pos hz] at h
    exact absurd h (by simp)
  · rw [if_neg hz] at h
    injection h with h
    subst h
    exact ⟨hdev, rfl, rfl, Nat.pos_of_ne_zero hz, rfl, rfl, rfl, rfl, rfl, rfl, rfl⟩

/-! ### Claim theorems -/

/-- Claim C1: for every event group captured at a pass's exit boundary, the
value recorded into the pass's result buffer for each event is the normalized
value, and normalization over raw per-instance values `v_1..v_n`
(`n = perGroupInstances`) with total domain instance count `T` is exact
truncating integer arithmetic: the recorded value is
`floor((v_1 + ... + v_n) * T / n)`; in particular `n = 1, T = 1` yields the
sum, `n = 4, T = 8, sum = 100` yields `200`, and `n = 3, T = 2, sum = 7`
yields `4`. -/
theorem C1_normalization_exact :
    (∀ (env : CatalogueEnv) (pd : pass_data_t) (g : EventGroup),
        (captureGroup env pd g).event_values
          = pd.event_values ++ (env.groupEvents g).map (readEventValue env g))
    ∧ (∀ (vs : List Nat) (T : Nat), 0 < vs.length → vs.sum * T < U64 →
        normalize_instances vs T vs.length = vs.sum * T / vs.length)
    ∧ normalize_instances [7] 1 1 = 7
    ∧ normalize_instances [25, 25, 25, 25] 8 4 = 200
    ∧ normalize_instances [3, 2, 2] 2 3 = 4 := by
  refine ⟨fun env pd g => rfl, fun vs T _ h => normalize_instances_eq vs T h, ?_, ?_, ?_⟩
  · decide
  · decide
  · decide

/-- Witness for C1: the spec's end-to-end scenario, raw instance values
`[10, 20]`, domain total `4`, group instance count `2`, normalized `60`. -/
theorem C1_normalization_exact_witness :
    normalize_instances [10, 20] 4 2 = 60 := by
  have h := C1_normalization_exact.2.1 [10, 20] 4 (by decide) (by decide)
  simpa using h

/-- Claim C2: exit-boundary invocations at or beyond the planned pass count
are silent no-ops: invoking the exit boundary `passCount() + 5` times yields
the same `AggregateResult` as invoking it exactly `passCount()` times. -/
theorem C2_exit_beyond_passes_noop (env : CatalogueEnv) (p : profiler)
    (hlen : p.m_data.length = p.get_passes)
    (htp : ∀ pd ∈ p.m_data, pd.total_passes = p.get_passes) :
    aggregate env { p with m_data :=
        (run_exits env (p.get_passes + 5)
          { current_pass := 0, pass_vector := p.m_data, enabled := [] }).pass_vector }
      = aggregate env { p with m_data :=
        (run_exits env p.get_passes
          { current_pass := 0, pass_vector := p.m_data, enabled := [] }).pass_vector } := by
  have hstate : run_exits env (p.get_passes + 5)
        { current_pass := 0, pass_vector := p.m_data, enabled := [] }
      = run_exits env p.get_passes
        { current_pass := 0, pass_vector := p.m_data, enabled := [] } := by
    rw [run_exits_add]
    obtain ⟨hcur, hlen', htp'⟩ := run_exits_wf_cursor env p.get_passes p.get_passes
      { current_pass := 0, pass_vector := p.m_data, enabled := [] } hlen htp (by simp)
    refine run_exits_noop env _ p.get_passes 5 hlen' htp' ?_
    rw [hcur]
    simp
  rw [hstate]

/-- Witness for C2: the two-pass fixture run with 7 exit boundaries agrees
with the run with exactly 2. -/
theorem C2_exit_beyond_passes_noop_witness :
    aggregate envW { pW with m_data :=
        (run_exits envW (pW.get_passes + 5)
          { current_pass := 0, pass_vector := pW.m_data, enabled := [] }).pass_vector }
      = aggregate envW { pW with m_data :=
        (run_exits envW pW.get_passes
          { current_pass := 0, pass_vector := pW.m_data, enabled := [] }).pass_vector } :=
  C2_exit_beyond_passes_noop envW pW (by decide) (by decide)

/-- Counterexample to claim C3: in the concrete run `pC3` the requested event
id `42` is absent from the mapping built over the event-derived passes'
results (which holds only `(7, 5)`), yet finalization does not fail — it
records the silent zero `0` for that event (via default-constructed
`std::map` lookup) and returns it from `get_event_values`. -/
theorem C3_counterexample :
    (event_map_of pC3).filter (fun kv => kv.1 == 42) = []
    ∧ (profiler.stop envC3 pC3).m_events = [0]
    ∧ profiler.get_event_values (profiler.stop envC3 pC3) = [0] := by
  refine ⟨by decide, by decide, by decide⟩

/-- Claim C3 as amended: at finalization, a requested raw event whose
`EventId` is absent from the mapping built over the event-derived passes'
results is recorded with value `0` (the value-initialized result of
`std::map::operator[]`), not surfaced as an error. -/
theorem C3_amended_silent_zero (env : CatalogueEnv) (p : profiler)
    (i : Nat) (e : EventID)
    (habs : (event_map_of p).filter (fun kv => kv.1 == e) = [])
    (hi : p.m_event_id[i]? = some e)
    (hlen : p.m_event_id.length = p.m_num_events)
    (hev : p.m_events = []) :
    (profiler.stop env p).m_events[i]? = some 0 := by
  have hml : map_lookup (event_map_of p) e = 0 := by
    unfold map_lookup
    rw [habs]
    rfl
  simp only [profiler.stop, hev, List.nil_append]
  rw [← hlen, range_map_getD p.m_event_id (map_lookup (event_map_of p)) 0]
  rw [List.getElem?_map, hi]
  simp [hml]

/-- Witness for the amended C3: the concrete mismatch run records `0` for the
uncollected requested event. -/
theorem C3_amended_silent_zero_witness :
    (profiler.stop envC3 pC3).m_events[0]? = some 0 :=
  C3_amended_silent_zero envC3 pC3 0 42 (by decide) (by decide) rfl rfl

/-- Claim C4: for every successfully planned request, `passCount()` equals
the number of passes produced by the metric partition plus the number of
passes produced by the event partition, and is at least 1. -/
theorem C4_pass_count (env : CatalogueEnv) (events metrics : List String)
    (p : profiler) (h : profiler.mk? env events metrics = .ok p) :
    p.get_passes = (if 0 < metrics.length then env.metricSets.length else 0)
        + (if 0 < events.length then env.eventSets.length else 0)
    ∧ 1 ≤ p.get_passes := by
  obtain ⟨-, hmp, hep, hpos, -⟩ := mk?_ok env events metrics p h
  unfold profiler.get_passes
  rw [hmp, hep]
  refine ⟨rfl, ?_⟩
  rw [← hmp, ← hep]
  omega

/-- Witness for C4: the fixture request with one event and one metric plans
`1 + 1` passes. -/
theorem C4_pass_count_witness :
    pW.get_passes = (if 0 < (["m"] : List String).length then envW.metricSets.length else 0)
        + (if 0 < (["A"] : List String).length then envW.eventSets.length else 0)
    ∧ 1 ≤ pW.get_passes :=
  C4_pass_count envW ["A"] ["m"] pW rfl

/-- Claim C5: after finalization the output event-value sequence has length
equal to the request's event count with the value of the `i`-th requested
event at position `i`, and the output metric-value sequence has length equal
to the request's metric count with the `i`-th entry tagged with the native
value kind of the `i`-th requested metric — for any contents of `m_data`,
hence regardless of the internal pass ordering. -/
theorem C5_output_shapes (env : CatalogueEnv) (p : profiler)
    (hev : p.m_events = [])
    (hie : p.m_event_id.length = p.m_num_events)
    (him : p.m_metric_id.length = p.m_num_metrics) :
    (profiler.get_event_values (profiler.stop env p)).length = p.m_num_events
    ∧ (∀ (i : Nat) (e : EventID), p.m_event_id[i]? = some e →
        (profiler.get_event_values (profiler.stop env p))[i]?
          = some (map_lookup (event_map_of p) e))
    ∧ (metric_outputs env (profiler.stop env p)).length = p.m_num_metrics
    ∧ (∀ (i : Nat) (m : MetricID), p.m_metric_id[i]? = some m →
        ((metric_outputs env (profiler.stop env p))[i]?).map Prod.fst
          = some (env.metricKind m)) := by
  have hstope : (profiler.stop env p).m_events
      = (List.range p.m_num_events).map
          (fun i => map_lookup (event_map_of p) (p.m_event_id.getD i 0)) := by
    simp [profiler.stop, hev]
  have hmape : (profiler.stop env p).m_events = p.m_event_id.map (map_lookup (event_map_of p)) := by
    rw [hstope, ← hie, range_map_getD p.m_event_id (map_lookup (event_map_of p)) 0]
  have hne : (profiler.stop env p).m_num_events = p.m_num_events := rfl
  have hnm : (profiler.stop env p).m_num_metrics = p.m_num_metrics := rfl
  refine ⟨?_, ?_, ?_, ?_⟩
  · unfold profiler.get_event_values
    rw [hne]
    by_cases hp : 0 < p.m_num_events
    · rw [if_pos hp, hmape]
      simp [hie]
    · rw [if_neg hp]
      simp only [List.length_nil]
      omega
  · intro i e hi
    have hipos : 0 < p.m_num_events := by
      have : i < p.m_event_id.length := by
        by_contra hge
        rw [List.getElem?_eq_none (by omega)] at hi
        exact absurd hi (by simp)
      omega
    unfold profiler.get_event_values
    rw [hne, if_pos hipos, hmape, List.getElem?_map, hi]
    rfl
  · unfold metric_outputs
    rw [hnm]
    by_cases hp : p.m_num_metrics ≤ 0
    · rw [if_pos hp]
      simp only [List.length_nil]
      omega
    · rw [if_neg hp]
      simp
  · intro i m hi
    have hilt : i < p.m_num_metrics := by
      have : i < p.m_metric_id.length := by
        by_contra hge
        rw [List.getElem?_eq_none (by omega)] at hi
        exact absurd hi (by simp)
      omega
    unfold metric_outputs
    rw [hnm, if_neg (by omega)]
    rw [List.getElem?_map, List.getElem?_range hilt]
    have hgd : (profiler.stop env p).m_metric_id.getD i 0 = m := by
      have : (profiler.stop env p).m_metric_id = p.m_metric_id := rfl
      rw [this, List.getD_eq_getElem?_getD, hi]
      rfl
    simp [← List.getD_eq_getElem?_getD, hgd]

/-- Witness for C5: the fixture request yields one event value and one metric
output. -/
theorem C5_output_shapes_witness :
    (profiler.get_event_values (profiler.stop envW pW)).length = pW.m_num_events
    ∧ (metric_outputs envW (profiler.stop envW pW)).length = pW.m_num_metrics := by
  have h := C5_output_shapes envW pW rfl rfl rfl
  exact ⟨h.1, h.2.2.1⟩

/-- Claim C6: when every metric-derived pass's capture completed, the
aggregator's flat buffers are exactly the concatenation, in pass order, of
the metric-derived passes' `(EventId, normalizedValue)` pairs — and only
those — with total length equal to the sum of those passes' planned counter
totals, and exactly these flat buffers are handed to every requested
metric's value computation. -/
theorem C6_flat_metric_buffer (env : CatalogueEnv) (p : profiler)
    (h : ∀ pd ∈ p.m_data.take p.m_metric_passes,
        pd.event_ids.length = pd.num_events ∧
        pd.event_values.length = pd.num_events) :
    (flat_of p).ids
      = ((p.m_data.take p.m_metric_passes).flatMap (fun pd => pd.event_ids)).map some
    ∧ (flat_of p).vals
      = ((p.m_data.take p.m_metric_passes).flatMap (fun pd => pd.event_values)).map some
    ∧ (flat_of p).ids.length = total_metric_events p
    ∧ (flat_of p).vals.length = total_metric_events p
    ∧ (profiler.stop env p).m_metrics
      = p.m_metrics ++ (List.range p.m_num_metrics).map
          (fun i => env.computeMetricValue (p.m_metric_id.getD i 0)
            (((p.m_data.take p.m_metric_passes).flatMap (fun pd => pd.event_ids)).map some)
            (((p.m_data.take p.m_metric_passes).flatMap (fun pd => pd.event_values)).map some)) := by
  have hflat := flat_of_eq p h
  have hlen : ∀ f : pass_data_t → List Nat,
      (∀ pd ∈ p.m_data.take p.m_metric_passes, (f pd).length = pd.num_events) →
      (((p.m_data.take p.m_metric_passes).flatMap f).map some).length
        = total_metric_events p := by
    intro f hf
    rw [List.length_map, List.length_flatMap, total_metric_events]
    exact congrArg List.sum (List.map_congr_left hf)
  refine ⟨by rw [hflat], by rw [hflat], ?_, ?_, ?_⟩
  · rw [hflat]
    exact hlen (fun pd => pd.event_ids) (fun pd hpd => (h pd hpd).1)
  · rw [hflat]
    exact hlen (fun pd => pd.event_values) (fun pd hpd => (h pd hpd).2)
  · simp only [profiler.stop, hflat]

/-- Witness for C6: the completed fixture run concatenates the single metric
pass's pair `(99, 60)` into the flat buffer. -/
theorem C6_flat_metric_buffer_witness :
    (flat_of pDoneW).ids
      = ((pDoneW.m_data.take pDoneW.m_metric_passes).flatMap (fun pd => pd.event_ids)).map some
    ∧ (flat_of pDoneW).ids.length = total_metric_events pDoneW := by
  have h := C6_flat_metric_buffer envW pDoneW (by decide)
  exact ⟨h.1, h.2.2.1⟩

/-- Claim C7: for every pass planned by the constructor, the number of
`(EventId, value)` pairs appended to that pass's result buffers by its
exit-boundary capture equals the pass's planned counter total `num_events`,
which itself is the sum of the per-group event counts computed at planning
time. -/
theorem C7_capture_matches_plan (env : CatalogueEnv) (events metrics : List String)
    (p : profiler) (h : profiler.mk? env events metrics = .ok p)
    (pd : pass_data_t) (hpd : pd ∈ p.m_data) :
    pd.num_events = plannedEvents env pd.event_groups
    ∧ (capturePass env pd).event_ids.length = pd.event_ids.length + pd.num_events
    ∧ (capturePass env pd).event_values.length = pd.event_values.length + pd.num_events := by
  obtain ⟨-, -, -, -, -, -, -, -, -, -, hdata⟩ := mk?_ok env events metrics p h
  have hplan : pd.num_events = plannedEvents env pd.event_groups := by
    rw [hdata] at hpd
    rcases List.mem_append.mp hpd with hm | hm <;>
      · obtain ⟨gs, -, hgs⟩ := List.mem_map.mp hm
        rw [← hgs]
        rfl
  refine ⟨hplan, ?_, ?_⟩
  · rw [(capturePass_lengths env pd).1, hplan]
  · rw [(capturePass_lengths env pd).2, hplan]

/-- Witness for C7: each fixture pass plans one counter and its capture
appends exactly one pair. -/
theorem C7_capture_matches_plan_witness :
    pdMW.num_events = plannedEvents envW pdMW.event_groups
    ∧ (capturePass envW pdMW).event_ids.length = pdMW.event_ids.length + pdMW.num_events
    ∧ (capturePass envW pdMW).event_values.length
        = pdMW.event_values.length + pdMW.num_events :=
  C7_capture_matches_plan envW ["A"] ["m"] pW rfl pdMW (by decide)

/-- Claim C8: the pass cursor is never changed at an entry boundary, advances
by exactly one at each completed exit boundary, and a capture occurring while
the cursor is below the total pass count writes its results into exactly the
pass at the cursor's index. -/
theorem C8_cursor_protocol (env : CatalogueEnv) (s : callback_state) (N : Nat)
    (hlen : s.pass_vector.length = N)
    (htp : ∀ pd ∈ s.pass_vector, pd.total_passes = N) :
    (get_value_callback_enter env s).current_pass = s.current_pass
    ∧ (s.current_pass < N →
        (get_value_callback_exit env s).current_pass = s.current_pass + 1)
    ∧ (∀ pd, s.current_pass < N → s.pass_vector[s.current_pass]? = some pd →
        (get_value_callback_exit env s).pass_vector
          = s.pass_vector.set s.current_pass (capturePass env pd)) := by
  refine ⟨enter_current_pass env s, ?_, ?_⟩
  · intro hlt
    exact exit_cursor_of_lt env s N hlen htp hlt
  · intro pd hlt hpd
    rw [exit_eq_of_lt env s N hlen htp hlt pd hpd]

/-- Witness for C8: at the start of the fixture run the entry boundary leaves
the cursor at 0. -/
theorem C8_cursor_protocol_witness :
    (get_value_callback_enter envW sW).current_pass = sW.current_pass :=
  (C8_cursor_protocol envW sW 2 (by decide) (by decide)).1

/-- Claim C9: a collection request with zero event names and zero metric
names fails during construction (before any pass runs) with the
`EmptyRequest` setup error — the `assert` on the total pass count — and
construction succeeds only when at least one of the two name sequences is
non-empty. -/
theorem C9_empty_request (env : CatalogueEnv) (hdev : env.deviceCount ≠ 0) :
    profiler.mk? env [] [] = .error SetupError.EmptyRequest
    ∧ ∀ (events metrics : List String) (p : profiler),
        profiler.mk? env events metrics = .ok p → 0 < events.length + metrics.length := by
  constructor
  · simp [profiler.mk?, hdev]
  · intro events metrics p h
    by_contra h0
    have he : events.length = 0 := by omega
    have hm : metrics.length = 0 := by omega
    obtain ⟨-, hmp, hep, hpos, -⟩ := mk?_ok env events metrics p h
    rw [hmp, hep, if_neg (by omega), if_neg (by omega)] at hpos
    exact absurd hpos (by simp)

/-- Witness for C9: under the fixture catalogue the empty request is refused. -/
theorem C9_empty_request_witness :
    profiler.mk? envW [] [] = .error SetupError.EmptyRequest :=
  (C9_empty_request envW (by decide)).1

/-- Claim C10: the exit-boundary capture of the pass at the cursor mutates
only that pass's result buffers: every other pass of the vector is unchanged,
and the captured pass keeps its group assignment, device handle, planned
counter total, total pass count and `current_event_idx` unchanged. -/
theorem C10_capture_frame (env : CatalogueEnv) (s : callback_state) (N : Nat)
    (hlen : s.pass_vector.length = N)
    (htp : ∀ pd ∈ s.pass_vector, pd.total_passes = N)
    (hlt : s.current_pass < N)
    (pd : pass_data_t) (hpd : s.pass_vector[s.current_pass]? = some pd) :
    (∀ j, j ≠ s.current_pass →
        (get_value_callback_exit env s).pass_vector[j]? = s.pass_vector[j]?)
    ∧ (get_value_callback_exit env s).pass_vector[s.current_pass]?
        = some (capturePass env pd)
    ∧ (capturePass env pd).event_groups = pd.event_groups
    ∧ (capturePass env pd).device = pd.device
    ∧ (capturePass env pd).num_events = pd.num_events
    ∧ (capturePass env pd).total_passes = pd.total_passes
    ∧ (capturePass env pd).current_event_idx = pd.current_event_idx := by
  have hplanned := capturePass_planned env pd
  rw [exit_eq_of_lt env s N hlen htp hlt pd hpd]
  refine ⟨?_, ?_, hplanned.2.2.1, hplanned.2.1, hplanned.2.2.2.2,
    hplanned.1, hplanned.2.2.2.1⟩
  · intro j hj
    exact List.getElem?_set_ne (Ne.symm hj)
  · exact List.getElem?_set_self (by omega)

/-- Witness for C10: capturing pass 0 of the fixture leaves pass 1
untouched. -/
theorem C10_capture_frame_witness :
    (get_value_callback_exit envW sW).pass_vector[1]? = sW.pass_vector[1]? :=
  (C10_capture_frame envW sW 2 (by decide) (by decide) (by decide) pdMW (by decide)).1
    1 (by decide)
